import Mathlib

/-!
Verification of the LLMAdventure game orchestration engine.

The development embeds, as executable Lean definitions, the CLI command
dispatch of src/main.py, the quest-generator plugin of
src/examples/plugin_example.py, and the entity model, content cache,
gateway seam, plugin event bus and session persistence that the design
document describes.  Theorems settle the testable properties stated in
the design document against these definitions.
-/

namespace LLMAdventure

/-! ### Python string primitives

The CLI reads raw input and normalizes it with the Python methods
strip and lower.  We embed strip as dropping whitespace characters from
both ends of the character list, and lower as ASCII lowercasing, which
agrees with Python on the ASCII command strings the game uses.
-/

/-- Whitespace characters removed by the Python strip method. -/
def isPySpace (c : Char) : Bool :=
  c = ' ' || c = '\t' || c = '\n' || c = '\r' || c = '\x0b' || c = '\x0c'

/-- Embedding of the Python str.strip method. -/
def pyStrip (s : String) : String :=
  ⟨((s.data.dropWhile isPySpace).reverse.dropWhile isPySpace).reverse⟩

/-- ASCII lowercasing of one character. -/
def asciiLower (c : Char) : Char :=
  if 'A' ≤ c ∧ c ≤ 'Z' then Char.ofNat (c.toNat + 32) else c

/-- Embedding of the Python str.lower method on ASCII strings. -/
def pyLower (s : String) : String :=
  ⟨s.data.map asciiLower⟩

/-- Boolean test that a list of characters starts with a given pattern,
embedding the Python str.startswith method. -/
def startsWithStr : List Char → List Char → Bool
  | [], _ => true
  | _ :: _, [] => false
  | p :: ps, c :: cs => p == c && startsWithStr ps cs

/-!
Character creation, from start_new_game in src/main.py lines 116-118:
the entered name is stripped, and if the stripped name is falsy (empty)
the name Adventurer is used instead.
-/

/-- The character name chosen by start_new_game from the raw input. -/
def startNewGameName (raw : String) : String :=
  let name := pyStrip raw
  if name = "" then "Adventurer" else name

/-! ### Entity model

Modelled from the spec: the Player record of section 3 with the closed
class enumeration, health bounded by max health, level, experience,
inventory and current location.  The Player class itself is not part of
the sources under src, only its users are.
-/

/-- Modelled from the spec: the closed player class enumeration
warrior, mage, rogue, ranger. -/
inductive PlayerClass where
  | warrior
  | mage
  | rogue
  | ranger
  deriving Repr, DecidableEq

/-- The string value of a player class, as used by plugin code through
the value attribute. -/
def PlayerClass.value : PlayerClass → String
  | .warrior => "warrior"
  | .mage => "mage"
  | .rogue => "rogue"
  | .ranger => "ranger"

/-- Modelled from the spec: an Item is a name, a description and an
effect descriptor, immutable once generated. -/
structure Item where
  name : String
  description : String
  effect : String
  deriving Repr, DecidableEq

/-- Modelled from the spec: the Player record of the entity model.
Numeric fields are integers so that clamping at zero is meaningful. -/
structure Player where
  name : String
  player_class : PlayerClass
  health : Int
  max_health : Int
  level : Int
  experience : Int
  inventory : List Item
  location : String
  deriving Repr, DecidableEq

/-- Modelled from the spec: apply_damage clamps health at 0 and returns
whether the target became defeated.  The Player entity class is not
under src; this follows section 4.1 of the design document. -/
def apply_damage (p : Player) (amount : Int) : Player × Bool :=
  let newHealth := max 0 (p.health - amount)
  ({ p with health := newHealth }, newHealth == 0)

/-- Modelled from the spec: a Creature bound to a location, with a
level, health, and attack value. -/
structure Creature where
  name : String
  level : Int
  health : Int
  max_health : Int
  attack : Int
  deriving Repr, DecidableEq

/-! ### Theorems for character naming and damage -/

/-- An element on which the predicate fails survives dropWhile. -/
theorem mem_dropWhile_of_pred_false {α : Type} (p : α → Bool) (l : List α)
    (x : α) (hx : x ∈ l) (hpx : p x = false) : x ∈ l.dropWhile p := by
  induction l with
  | nil => exact absurd hx (List.not_mem_nil x)
  | cons a t ih =>
    rw [List.dropWhile_cons]
    by_cases hpa : p a = true
    · rw [if_pos hpa]
      rcases List.mem_cons.mp hx with h | h
      · subst h
        rw [hpa] at hpx
        cases hpx
      · exact ih h
    · rw [if_neg hpa]
      exact hx

/-- Stripping from both ends keeps any element failing the predicate,
so the result is nonempty when such an element exists. -/
theorem doubleDropWhile_ne_nil {α : Type} (p : α → Bool) (l : List α)
    (x : α) (hx : x ∈ l) (hpx : p x = false) :
    ((l.dropWhile p).reverse.dropWhile p).reverse ≠ [] := by
  have h1 : x ∈ l.dropWhile p := mem_dropWhile_of_pred_false p l x hx hpx
  have h2 : x ∈ (l.dropWhile p).reverse := List.mem_reverse.mpr h1
  have h3 : x ∈ (l.dropWhile p).reverse.dropWhile p :=
    mem_dropWhile_of_pred_false p _ x h2 hpx
  intro hcon
  rw [List.reverse_eq_nil_iff] at hcon
  rw [hcon] at h3
  exact List.not_mem_nil x h3

/-- Claim C9: a character creation input that is empty or consists only
of whitespace yields the player name Adventurer, and any other input
yields its stripped name unchanged. -/
theorem startNewGameName_spec (raw : String) :
    (raw.data.all isPySpace = true → startNewGameName raw = "Adventurer")
    ∧ (raw.data.all isPySpace = false →
        startNewGameName raw = pyStrip raw ∧ pyStrip raw ≠ "") := by
  constructor
  · intro h
    have h1 : raw.data.dropWhile isPySpace = [] := by
      rw [List.dropWhile_eq_nil_iff]
      intro x hx
      exact List.all_eq_true.mp h x hx
    have hs : pyStrip raw = "" := by
      unfold pyStrip
      rw [h1]
      rfl
    unfold startNewGameName
    rw [hs]
    rfl
  · intro h
    obtain ⟨x, hx, hxs⟩ : ∃ x ∈ raw.data, isPySpace x = false := by
      by_contra hcon
      push_neg at hcon
      have hall : raw.data.all isPySpace = true := by
        rw [List.all_eq_true]
        intro y hy
        exact eq_true_of_ne_false (hcon y hy)
      rw [hall] at h
      cases h
    have hne : pyStrip raw ≠ "" := by
      unfold pyStrip
      intro hcon
      have hdata := congrArg String.data hcon
      exact doubleDropWhile_ne_nil isPySpace raw.data x hx hxs hdata
    refine ⟨?_, hne⟩
    unfold startNewGameName
    rw [if_neg hne]

/-- Witness for claim C9 at concrete inputs. -/
theorem startNewGameName_spec_witness :
    ("  ".data.all isPySpace = true ∧ startNewGameName "  " = "Adventurer")
    ∧ (" Hero ".data.all isPySpace = false ∧
        startNewGameName " Hero " = pyStrip " Hero " ∧ pyStrip " Hero " ≠ "") :=
  ⟨⟨by decide, (startNewGameName_spec "  ").1 (by decide)⟩,
   ⟨by decide, (startNewGameName_spec " Hero ").2 (by decide)⟩⟩

/-- Claim C2: for a Player with health between 0 and max health and a
non-negative damage amount, apply_damage leaves health in the interval
from 0 to max health, clamping at 0, and reports defeat exactly when
health reached 0. -/
theorem apply_damage_spec (p : Player) (amount : Int)
    (hh0 : 0 ≤ p.health) (hhm : p.health ≤ p.max_health) (ha : 0 ≤ amount) :
    0 ≤ (apply_damage p amount).1.health
    ∧ (apply_damage p amount).1.health ≤ (apply_damage p amount).1.max_health
    ∧ (apply_damage p amount).1.max_health = p.max_health
    ∧ ((apply_damage p amount).2 = true ↔ (apply_damage p amount).1.health = 0) := by
  unfold apply_damage
  refine ⟨le_max_left 0 _, ?_, rfl, ?_⟩
  · have h1 : p.health - amount ≤ p.max_health := by omega
    have h2 : (0 : Int) ≤ p.max_health := le_trans hh0 hhm
    exact max_le h2 h1
  · simp only [beq_iff_eq]

/-- Witness for claim C2: a damage amount exceeding current health. -/
theorem apply_damage_spec_witness :
    let p : Player := ⟨"Hero", PlayerClass.warrior, 30, 100, 1, 0, [], "start"⟩
    0 ≤ (apply_damage p 50).1.health
    ∧ (apply_damage p 50).1.health ≤ (apply_damage p 50).1.max_health
    ∧ (apply_damage p 50).1.max_health = p.max_health
    ∧ ((apply_damage p 50).2 = true ↔ (apply_damage p 50).1.health = 0) :=
  apply_damage_spec _ 50 (by decide) (by decide) (by decide)

/-! ### Quest generator plugin

Embedding of QuestGeneratorPlugin from src/examples/plugin_example.py.
The Quest class itself lives outside src; its construction with a fresh
progress of 0 is modelled from the spec (section 3 bounds progress by
target_count and treats a new quest as unstarted).
-/

/-- Replacement of every occurrence of a pattern in a character list,
embedding the placeholder substitution performed by str.format in
_generate_starter_quest. -/
def replaceAll (pat repl : List Char) : List Char → List Char
  | [] => []
  | c :: rest =>
    if h : pat ≠ [] ∧ startsWithStr pat (c :: rest) = true then
      repl ++ replaceAll pat repl ((c :: rest).drop pat.length)
    else
      c :: replaceAll pat repl rest
termination_by l => l.length
decreasing_by
  · simp only [List.length_drop, List.length_cons]
    have hp : 0 < pat.length := List.length_pos.mpr h.1
    omega
  · simp only [List.length_cons]
    omega

/-- String replacement built on replaceAll. -/
def pyReplace (s pat repl : String) : String :=
  ⟨replaceAll pat.data repl.data s.data⟩

/-- A quest record with the fields that plugin_example.py uses.  The
initial progress of a freshly constructed quest is modelled from the
spec: a new quest starts unstarted with progress 0. -/
structure Quest where
  title : String
  description : String
  quest_type : String
  target_count : Nat
  progress : Nat
  reward_exp : Nat
  deriving Repr, DecidableEq

/-- One entry of the quest_templates list of QuestGeneratorPlugin. -/
structure QuestTemplate where
  title : String
  description : String
  qtype : String
  target_count : Nat
  reward_exp : Nat
  deriving Repr, DecidableEq

/-- The quest_templates list built in QuestGeneratorPlugin init. -/
def quest_templates : List QuestTemplate :=
  [ ⟨"Monster Hunter", "Defeat {count} {creature_type} creatures", "combat", 3, 100⟩
  , ⟨"Explorer", "Visit {count} different locations", "exploration", 5, 75⟩
  , ⟨"Collector", "Collect {count} {item_type} items", "collection", 10, 50⟩ ]

/-- Quest construction in _generate_starter_quest: the description
placeholders are formatted with the target count, goblin and treasure,
and the remaining fields are copied from the template. -/
def questFromTemplate (t : QuestTemplate) : Quest :=
  { title := t.title
  , description :=
      pyReplace (pyReplace (pyReplace t.description "{count}" (toString t.target_count))
        "{creature_type}" "goblin") "{item_type}" "treasure"
  , quest_type := t.qtype
  , target_count := t.target_count
  , progress := 0
  , reward_exp := t.reward_exp }

/-- The state QuestGeneratorPlugin keeps for one player, paired with
the experience total of that player which _complete_quest rewards. -/
structure QuestPluginState where
  activeQuest : Option Quest
  experience : Nat
  deriving Repr, DecidableEq

/-- The state after _generate_starter_quest chose template t0 for a
player with no experience yet. -/
def initQuestState (t0 : QuestTemplate) : QuestPluginState :=
  { activeQuest := some (questFromTemplate t0), experience := 0 }

/-- Embedding of QuestGeneratorPlugin._update_quest_progress together
with _complete_quest: a matching active quest has its progress
incremented; if the incremented progress reaches the target count the
reward is added to the player experience and a fresh starter quest from
the template that random.choice selects replaces the completed one. -/
def update_quest_progress (st : QuestPluginState) (qt : String)
    (next : QuestTemplate) : QuestPluginState :=
  match st.activeQuest with
  | none => st
  | some quest =>
    if quest.quest_type = qt then
      if quest.target_count ≤ quest.progress + 1 then
        { activeQuest := some (questFromTemplate next)
        , experience := st.experience + quest.reward_exp }
      else
        { st with activeQuest := some { quest with progress := quest.progress + 1 } }
    else st

/-- A run of progress events, each carrying the quest type string of
the triggering hook and the template random.choice would pick if the
event completes the quest. -/
def runQuestEvents (st : QuestPluginState)
    (evts : List (String × QuestTemplate)) : QuestPluginState :=
  evts.foldl (fun s e => update_quest_progress s e.1 e.2) st

/-- Invariant: any active quest has progress strictly below its target
count. -/
def questInv (st : QuestPluginState) : Prop :=
  ∀ q, st.activeQuest = some q → q.progress < q.target_count

/-- Every quest template has a positive target count. -/
theorem quest_templates_target_pos : ∀ t ∈ quest_templates, 0 < t.target_count := by
  intro t ht
  fin_cases ht <;> decide

/-- One event preserves the quest invariant when replacement templates
come from the template list. -/
theorem update_preserves_questInv (st : QuestPluginState) (qt : String)
    (next : QuestTemplate) (hinv : questInv st)
    (hnext : next ∈ quest_templates) :
    questInv (update_quest_progress st qt next) := by
  unfold update_quest_progress
  split
  · exact hinv
  · rename_i q hq
    split
    · split
      · intro q' hq'
        have hq2 : questFromTemplate next = q' := Option.some.inj hq'
        subst hq2
        simpa [questFromTemplate] using quest_templates_target_pos next hnext
      · rename_i hc
        intro q' hq'
        have hq2 : { q with progress := q.progress + 1 } = q' := Option.some.inj hq'
        subst hq2
        simp only [not_le] at hc
        exact hc
    · exact hinv

/-- A whole run of events preserves the quest invariant. -/
theorem runQuestEvents_inv (evts : List (String × QuestTemplate)) :
    ∀ st, questInv st → (∀ e ∈ evts, e.2 ∈ quest_templates) →
    questInv (runQuestEvents st evts) := by
  induction evts with
  | nil =>
    intro st h _
    exact h
  | cons e rest ih =>
    intro st h hall
    have h1 : questInv (update_quest_progress st e.1 e.2) :=
      update_preserves_questInv st e.1 e.2 h (hall e (List.mem_cons_self e rest))
    exact ih _ h1 (fun x hx => hall x (List.mem_cons_of_mem e hx))

/-- Claim C3: along every run of progress events the active quest never
has progress at or above its target count, the step that reaches the
target adds the quest reward to the player experience exactly then and
archives the completed instance by replacing it with a fresh quest at
progress 0, and a step that does not complete the quest never changes
the experience, so a completed instance is neither re-incremented nor
re-rewarded. -/
theorem quest_completion_spec (t0 : QuestTemplate)
    (evts : List (String × QuestTemplate))
    (ht0 : t0 ∈ quest_templates)
    (hev : ∀ e ∈ evts, e.2 ∈ quest_templates) :
    (∀ pre, pre <+: evts → ∀ q,
        (runQuestEvents (initQuestState t0) pre).activeQuest = some q →
        q.progress < q.target_count)
    ∧ (∀ st qt next q, st.activeQuest = some q →
        q.quest_type = qt → q.target_count ≤ q.progress + 1 →
        (update_quest_progress st qt next).experience = st.experience + q.reward_exp
        ∧ (update_quest_progress st qt next).activeQuest = some (questFromTemplate next)
        ∧ (questFromTemplate next).progress = 0)
    ∧ (∀ st qt next, (∀ q, st.activeQuest = some q →
        ¬(q.quest_type = qt ∧ q.target_count ≤ q.progress + 1)) →
        (update_quest_progress st qt next).experience = st.experience) := by
  refine ⟨?_, ?_, ?_⟩
  · intro pre hpre q hq
    have hinit : questInv (initQuestState t0) := by
      intro q' hq'
      have hq2 : questFromTemplate t0 = q' := Option.some.inj hq'
      subst hq2
      simpa [questFromTemplate] using quest_templates_target_pos t0 ht0
    have hrun := runQuestEvents_inv pre (initQuestState t0) hinit
      (fun e he => hev e (hpre.subset he))
    exact hrun q hq
  · intro st qt next q hq hty hcnt
    unfold update_quest_progress
    split
    · rename_i hnone
      rw [hq] at hnone
      cases hnone
    · rename_i q2 hq2
      rw [hq] at hq2
      have hq3 : q2 = q := (Option.some.inj hq2).symm
      subst hq3
      rw [if_pos hty, if_pos hcnt]
      exact ⟨rfl, rfl, rfl⟩
  · intro st qt next hno
    unfold update_quest_progress
    split
    · rfl
    · rename_i q hq
      by_cases hty : q.quest_type = qt
      · rw [if_pos hty]
        by_cases hcnt : q.target_count ≤ q.progress + 1
        · exact absurd ⟨hty, hcnt⟩ (hno q hq)
        · rw [if_neg hcnt]
      · rw [if_neg hty]

/-- Witness for claim C3: the combat starter quest begins strictly
below its target count. -/
theorem quest_completion_spec_witness :
    (questFromTemplate
      ⟨"Monster Hunter", "Defeat {count} {creature_type} creatures", "combat", 3, 100⟩).progress
    < (questFromTemplate
      ⟨"Monster Hunter", "Defeat {count} {creature_type} creatures", "combat", 3, 100⟩).target_count :=
  (quest_completion_spec
    ⟨"Monster Hunter", "Defeat {count} {creature_type} creatures", "combat", 3, 100⟩
    [("combat", ⟨"Monster Hunter", "Defeat {count} {creature_type} creatures", "combat", 3, 100⟩)]
    (by decide)
    (by
      intro e he
      rw [List.mem_singleton] at he
      subst he
      decide)).1 [] ⟨_, rfl⟩ _ rfl

/-! ### Command dispatch of the play loop

Embedding of the play_game loop body in src/main.py lines 190 to 253:
the raw input is normalized with strip and lower, matched against the
fixed verb lists in source order, and otherwise handed to
process_command as a freeform action.  Note that the input s is
captured by the save branch before the south branch, as in the source.
-/

/-- Normalization applied to raw input on line 196 of src/main.py. -/
def normalizeCommand (raw : String) : String :=
  pyLower (pyStrip raw)

/-- The calls the play loop makes into the game and display objects. -/
inductive GameCall where
  | show_game_state
  | save_game
  | show_help
  | show_inventory
  | show_player_status
  | look_around
  | move_player (direction : String)
  | attack_creature (target : String)
  | talk_to_npc (npc : String)
  | use_item (item : String)
  | take_item (item : String)
  | process_command (cmd : String)
  deriving Repr, DecidableEq

/-- Outcome of one loop iteration: the calls made, and whether the loop
breaks back to the main menu. -/
inductive StepOutcome where
  | exitLoop (calls : List GameCall)
  | continueLoop (calls : List GameCall)
  deriving Repr, DecidableEq

/-- The elif chain of play_game for the branches that keep the loop
running, in source order.  The save branch precedes the south branch,
so the input s saves rather than moves, as in the source. -/
def continueCalls (command : String) : List GameCall :=
  if command = "save" ∨ command = "s" then
    [.save_game]
  else if command = "help" ∨ command = "h" ∨ command = "?" then
    [.show_help]
  else if command = "inventory" ∨ command = "i" ∨ command = "inv" then
    [.show_inventory]
  else if command = "status" ∨ command = "stats" ∨ command = "st" then
    [.show_player_status]
  else if command = "look" ∨ command = "l" then
    [.look_around]
  else if command = "north" ∨ command = "n" then
    [.move_player "north"]
  else if command = "south" ∨ command = "s" then
    [.move_player "south"]
  else if command = "east" ∨ command = "e" then
    [.move_player "east"]
  else if command = "west" ∨ command = "w" then
    [.move_player "west"]
  else if startsWithStr "attack ".data command.data then
    [.attack_creature (pyStrip ⟨command.data.drop 7⟩)]
  else if startsWithStr "talk ".data command.data then
    [.talk_to_npc (pyStrip ⟨command.data.drop 5⟩)]
  else if startsWithStr "use ".data command.data then
    [.use_item (pyStrip ⟨command.data.drop 4⟩)]
  else if startsWithStr "take ".data command.data then
    [.take_item (pyStrip ⟨command.data.drop 5⟩)]
  else
    [.process_command command]

/-- The verb dispatch of play_game on an already normalized command:
the quit branch on lines 198 to 201 of src/main.py saves and breaks the
loop, every other branch keeps the loop running with the calls of
continueCalls. -/
def dispatchNormalized (command : String) : StepOutcome :=
  if command = "quit" ∨ command = "exit" ∨ command = "q" then
    .exitLoop [.save_game]
  else
    .continueLoop (continueCalls command)

/-- Dispatch of one raw input line, as play_game performs it. -/
def dispatchCommand (raw : String) : StepOutcome :=
  dispatchNormalized (normalizeCommand raw)

/-- One unit of interaction reaching the play loop: a typed command or
a keyboard interrupt. -/
inductive PlayInput where
  | cmd (raw : String)
  | interrupt
  deriving Repr, DecidableEq

/-- How the play loop hands control back to the main menu. -/
inductive ExitRoute where
  | quitCommand
  | interrupted
  | exhausted
  deriving Repr, DecidableEq

/-- Embedding of the play_game loop over a finite input sequence.  Each
iteration shows the game state and dispatches one command; a keyboard
interrupt is handled on lines 247 to 250 of src/main.py by saving the
game and returning. -/
def play_game : List PlayInput → List GameCall × ExitRoute
  | [] => ([], .exhausted)
  | .interrupt :: _ => ([.save_game], .interrupted)
  | .cmd raw :: rest =>
    match dispatchCommand raw with
    | .exitLoop calls => (.show_game_state :: calls, .quitCommand)
    | .continueLoop calls =>
      let r := play_game rest
      (.show_game_state :: (calls ++ r.1), r.2)

/-- The quit branch is the only one breaking the loop, and it always
saves first. -/
theorem dispatchNormalized_exit (c : String) (calls : List GameCall)
    (h : dispatchNormalized c = .exitLoop calls) :
    calls = [GameCall.save_game] := by
  unfold dispatchNormalized at h
  split at h
  · injection h with h2
    exact h2.symm
  · exact StepOutcome.noConfusion h

/-- Claim C10: whenever the play loop hands control back through the
quit command or a keyboard interrupt, save_game has been invoked during
the loop, so neither route discards the session without saving. -/
theorem play_game_saves_on_exit (inputs : List PlayInput)
    (h : (play_game inputs).2 = ExitRoute.quitCommand
      ∨ (play_game inputs).2 = ExitRoute.interrupted) :
    GameCall.save_game ∈ (play_game inputs).1 := by
  induction inputs with
  | nil =>
    rcases h with h | h <;> exact absurd h (by simp [play_game])
  | cons i rest ih =>
    cases i with
    | interrupt => simp [play_game]
    | cmd raw =>
      cases hd : dispatchCommand raw with
      | exitLoop calls =>
        have hc := dispatchNormalized_exit (normalizeCommand raw) calls hd
        subst hc
        simp [play_game, hd]
      | continueLoop calls =>
        simp only [play_game, hd] at h ⊢
        have hmem := ih h
        exact List.mem_cons_of_mem _ (List.mem_append.mpr (Or.inr hmem))

/-- Witness for claim C10 on the quit command. -/
theorem play_game_saves_on_exit_witness :
    ((play_game [PlayInput.cmd "quit"]).2 = ExitRoute.quitCommand
      ∨ (play_game [PlayInput.cmd "quit"]).2 = ExitRoute.interrupted)
    ∧ GameCall.save_game ∈ (play_game [PlayInput.cmd "quit"]).1 :=
  ⟨Or.inl (by decide), play_game_saves_on_exit _ (Or.inl (by decide))⟩

/-! ### Locations, game state, and the freeform command contract -/

/-- Modelled from the spec: a Location with identifier, description,
exits, and the creatures and items bound to it (section 3). -/
structure Location where
  ident : String
  description : String
  exits : List (String × String)
  creatures : List Creature
  items : List Item
  deriving Repr, DecidableEq

/-- Modelled from the spec: the session states of section 4.6. -/
inductive Mode where
  | exploring
  | inCombat (enemy : String)
  | defeated
  deriving Repr, DecidableEq

/-- Modelled from the spec: the mutable context a command acts on, with
the player, the current location content, and the session state. -/
structure GameState where
  player : Player
  location : Location
  mode : Mode
  deriving Repr, DecidableEq

/-- All strings the fixed verb branches of play_game compare against. -/
def builtinVerbLists : List String :=
  ["quit", "exit", "q", "save", "s", "help", "h", "?", "inventory", "i", "inv",
   "status", "stats", "st", "look", "l", "north", "n", "south", "east", "e",
   "west", "w"]

/-- A normalized command matches some built-in verb branch. -/
def isBuiltinVerb (command : String) : Prop :=
  command ∈ builtinVerbLists
  ∨ startsWithStr "attack ".data command.data = true
  ∨ startsWithStr "talk ".data command.data = true
  ∨ startsWithStr "use ".data command.data = true
  ∨ startsWithStr "take ".data command.data = true

instance (command : String) : Decidable (isBuiltinVerb command) := by
  unfold isBuiltinVerb
  infer_instance

/-- Modelled from the spec: Game.process_command is not under src; per
section 4.5 a freeform command is forwarded to the Generative Content
Gateway as a narrative interpretation request and its result is
rendered as descriptive text only, never mutating the player. -/
def process_command (gateway : String → String) (g : GameState)
    (cmd : String) : GameState × String :=
  (g, gateway cmd)

/-- A command matching no built-in verb falls through every elif branch
to the freeform call. -/
theorem continueCalls_freeform (c : String) (h : ¬ isBuiltinVerb c) :
    continueCalls c = [GameCall.process_command c] := by
  unfold continueCalls
  rw [if_neg (by rintro (rfl | rfl) <;> exact h (Or.inl (by decide))),
    if_neg (by rintro (rfl | rfl | rfl) <;> exact h (Or.inl (by decide))),
    if_neg (by rintro (rfl | rfl | rfl) <;> exact h (Or.inl (by decide))),
    if_neg (by rintro (rfl | rfl | rfl) <;> exact h (Or.inl (by decide))),
    if_neg (by rintro (rfl | rfl) <;> exact h (Or.inl (by decide))),
    if_neg (by rintro (rfl | rfl) <;> exact h (Or.inl (by decide))),
    if_neg (by rintro (rfl | rfl) <;> exact h (Or.inl (by decide))),
    if_neg (by rintro (rfl | rfl) <;> exact h (Or.inl (by decide))),
    if_neg (by rintro (rfl | rfl) <;> exact h (Or.inl (by decide))),
    if_neg (fun hx => h (Or.inr (Or.inl hx))),
    if_neg (fun hx => h (Or.inr (Or.inr (Or.inl hx)))),
    if_neg (fun hx => h (Or.inr (Or.inr (Or.inr (Or.inl hx))))),
    if_neg (fun hx => h (Or.inr (Or.inr (Or.inr (Or.inr hx)))))]

/-- Claim C8: an input whose normalized form matches no built-in verb
is dispatched as a freeform process_command request, and processing a
freeform command returns narrative text only, leaving the player and
the whole game state unchanged. -/
theorem freeform_narrative_only (raw : String) (gateway : String → String)
    (g : GameState) (h : ¬ isBuiltinVerb (normalizeCommand raw)) :
    dispatchCommand raw
      = StepOutcome.continueLoop [GameCall.process_command (normalizeCommand raw)]
    ∧ (process_command gateway g (normalizeCommand raw)).1.player = g.player
    ∧ (process_command gateway g (normalizeCommand raw)).1 = g := by
  refine ⟨?_, rfl, rfl⟩
  unfold dispatchCommand
  generalize hc : normalizeCommand raw = c
  rw [hc] at h
  unfold dispatchNormalized
  rw [if_neg (by rintro (rfl | rfl | rfl) <;> exact h (Or.inl (by decide))),
    continueCalls_freeform _ h]

/-- Witness for claim C8 on a concrete freeform input. -/
theorem freeform_narrative_only_witness :
    let g : GameState :=
      ⟨⟨"Hero", PlayerClass.warrior, 30, 100, 1, 0, [], "start"⟩,
        ⟨"start", "A quiet clearing.", [], [], []⟩, Mode.exploring⟩
    dispatchCommand " Dance Wildly "
      = StepOutcome.continueLoop
          [GameCall.process_command (normalizeCommand " Dance Wildly ")]
    ∧ (process_command (fun s => s) g (normalizeCommand " Dance Wildly ")).1.player
        = g.player
    ∧ (process_command (fun s => s) g (normalizeCommand " Dance Wildly ")).1 = g :=
  freeform_narrative_only " Dance Wildly " (fun s => s) _ (by decide)

/-! ### Attack target resolution -/

/-- The error taxonomy entries exercised by the attack verb. -/
inductive GameError where
  | targetNotFound
  | noExit
  deriving Repr, DecidableEq

/-- Modelled from the spec: the attack target is resolved by a
case-insensitive name match against living creatures present at the
current location (section 4.5). -/
def findLivingCreature (loc : Location) (target : String) : Option Creature :=
  loc.creatures.find?
    (fun c => pyLower c.name == pyLower target && decide (0 < c.health))

/-- Modelled from the spec: Game.attack_creature is not under src; per
sections 4.5 and 4.6 the attack verb enters combat with the matched
living creature and otherwise fails with TargetNotFound, leaving the
state unchanged. -/
def attack_creature (g : GameState) (target : String) :
    GameState × Option GameError :=
  match findLivingCreature g.location target with
  | none => (g, some .targetNotFound)
  | some c => ({ g with mode := Mode.inCombat c.name }, none)

/-- Claim C6: attacking a target for which no living creature with that
name is present fails with TargetNotFound and leaves the player and
location state unchanged, with no transition out of Exploring. -/
theorem attack_target_not_found (g : GameState) (target : String)
    (hmode : g.mode = Mode.exploring)
    (h : ∀ c ∈ g.location.creatures,
      pyLower c.name = pyLower target → c.health ≤ 0) :
    attack_creature g target = (g, some GameError.targetNotFound)
    ∧ (attack_creature g target).1.mode = Mode.exploring
    ∧ (attack_creature g target).1.player = g.player
    ∧ (attack_creature g target).1.location = g.location := by
  have hfind : findLivingCreature g.location target = none := by
    unfold findLivingCreature
    rw [List.find?_eq_none]
    intro c hc
    simp only [Bool.and_eq_true, beq_iff_eq, decide_eq_true_eq, not_and]
    intro heq
    have hle := h c hc heq
    omega
  unfold attack_creature
  rw [hfind]
  exact ⟨rfl, hmode, rfl, rfl⟩

/-- Witness for claim C6: a location with only a defeated goblin. -/
theorem attack_target_not_found_witness :
    let g : GameState :=
      ⟨⟨"Hero", PlayerClass.warrior, 30, 100, 1, 0, [], "start"⟩,
        ⟨"start", "A quiet clearing.", [], [⟨"Goblin", 1, 0, 10, 2⟩], []⟩,
        Mode.exploring⟩
    attack_creature g "goblin" = (g, some GameError.targetNotFound)
    ∧ (attack_creature g "goblin").1.mode = Mode.exploring
    ∧ (attack_creature g "goblin").1.player = g.player
    ∧ (attack_creature g "goblin").1.location = g.location :=
  attack_target_not_found _ "goblin" rfl (by decide)

/-! ### Plugin event bus

Modelled from the spec: the Event Bus of section 4.4 is not under src;
only example plugins are.  Plugins expose named lifecycle hooks; a hook
may mutate the shared state or raise an error.  Dispatch walks the
registered plugins in registration order, catching and logging any
hook error and continuing with the next plugin.
-/

/-- The lifecycle hook names of section 4.4. -/
inductive HookName where
  | on_game_start
  | on_player_move
  | on_location_visited
  | on_item_collected
  | on_combat_start
  | on_combat_turn
  | on_combat_end
  | on_creature_defeated
  deriving Repr, DecidableEq

/-- Modelled from the spec: a plugin is a named value whose hooks
either produce an updated state or raise an error message. -/
structure Plugin (σ : Type) where
  name : String
  hook : HookName → σ → Except String σ

/-- The outcome of one dispatch round: the resulting state, the plugins
invoked in order, and the errors logged. -/
structure DispatchResult (σ : Type) where
  state : σ
  invoked : List String
  errors : List String

/-- One plugin step of the dispatch loop: an error is caught and
logged, leaving the state untouched by the failing hook. -/
def dispatchStep {σ : Type} (ev : HookName) (acc : DispatchResult σ)
    (p : Plugin σ) : DispatchResult σ :=
  match p.hook ev acc.state with
  | .ok st2 =>
    { acc with state := st2, invoked := acc.invoked ++ [p.name] }
  | .error e =>
    { acc with invoked := acc.invoked ++ [p.name]
             , errors := acc.errors ++ [p.name ++ ": " ++ e] }

/-- Modelled from the spec: Event Bus dispatch over the registration
list, in order, with per-plugin error isolation. -/
def dispatchEvent {σ : Type} (plugins : List (Plugin σ)) (ev : HookName)
    (st : σ) : DispatchResult σ :=
  plugins.foldl (dispatchStep ev) ⟨st, [], []⟩

/-- Folding from an arbitrary accumulator decomposes into the dispatch
from its state with the invocation and error logs appended. -/
theorem dispatchFold_decompose {σ : Type} (ev : HookName)
    (l : List (Plugin σ)) (acc : DispatchResult σ) :
    List.foldl (dispatchStep ev) acc l
      = { state := (dispatchEvent l ev acc.state).state
        , invoked := acc.invoked ++ (dispatchEvent l ev acc.state).invoked
        , errors := acc.errors ++ (dispatchEvent l ev acc.state).errors } := by
  induction l generalizing acc with
  | nil => simp [dispatchEvent]
  | cons p l ih =>
    show List.foldl _ (dispatchStep ev acc p) l = _
    rw [ih]
    have h2 : dispatchEvent (p :: l) ev acc.state
        = List.foldl (dispatchStep ev) (dispatchStep ev ⟨acc.state, [], []⟩ p) l := rfl
    rw [h2, ih]
    cases hr : p.hook ev acc.state <;>
      simp [dispatchStep, hr, List.append_assoc]

/-- Claim C7: dispatch reaches every registered plugin in registration
order regardless of hook errors, and a failing hook has its error
caught and logged while the state it received is handed unchanged to
the remaining plugins; no hook error escapes the dispatch loop, whose
result is always an ordinary value. -/
theorem plugin_dispatch_isolation {σ : Type} (plugins : List (Plugin σ))
    (ev : HookName) (st : σ) :
    (dispatchEvent plugins ev st).invoked = plugins.map Plugin.name
    ∧ (∀ l1 (p : Plugin σ) l2 e, plugins = l1 ++ p :: l2 →
        p.hook ev (dispatchEvent l1 ev st).state = .error e →
        (p.name ++ ": " ++ e) ∈ (dispatchEvent plugins ev st).errors
        ∧ (dispatchEvent plugins ev st).state
            = (dispatchEvent l2 ev (dispatchEvent l1 ev st).state).state) := by
  constructor
  · induction plugins generalizing st with
    | nil => rfl
    | cons p l ih =>
      show (List.foldl (dispatchStep ev) (dispatchStep ev ⟨st, [], []⟩ p) l).invoked = _
      rw [dispatchFold_decompose]
      cases hr : p.hook ev st <;> simp [dispatchStep, hr, ih]
  · intro l1 p l2 e hsplit herr
    subst hsplit
    have hfold : dispatchEvent (l1 ++ p :: l2) ev st
        = List.foldl (dispatchStep ev)
            (dispatchStep ev (dispatchEvent l1 ev st) p) l2 := by
      unfold dispatchEvent
      rw [List.foldl_append]
      rfl
    have hstep : dispatchStep ev (dispatchEvent l1 ev st) p
        = { dispatchEvent l1 ev st with
            invoked := (dispatchEvent l1 ev st).invoked ++ [p.name]
          , errors := (dispatchEvent l1 ev st).errors ++ [p.name ++ ": " ++ e] } := by
      unfold dispatchStep
      rw [herr]
    rw [hfold, hstep, dispatchFold_decompose]
    constructor
    · simp
    · rfl

/-- Witness for claim C7: a failing middle plugin is logged and the
plugins after it still run. -/
theorem plugin_dispatch_isolation_witness :
    let inc : Plugin Nat := ⟨"inc", fun _ n => .ok (n + 1)⟩
    let boom : Plugin Nat := ⟨"boom", fun _ _ => .error "fail"⟩
    ("boom" ++ ": " ++ "fail")
      ∈ (dispatchEvent [inc, boom, inc] HookName.on_game_start 0).errors
    ∧ (dispatchEvent [inc, boom, inc] HookName.on_game_start 0).state
        = (dispatchEvent [inc] HookName.on_game_start
            (dispatchEvent [inc] HookName.on_game_start 0).state).state :=
  (plugin_dispatch_isolation
    [⟨"inc", fun _ n => .ok (n + 1)⟩, ⟨"boom", fun _ _ => .error "fail"⟩,
      ⟨"inc", fun _ n => .ok (n + 1)⟩]
    HookName.on_game_start 0).2
    [⟨"inc", fun _ n => .ok (n + 1)⟩] ⟨"boom", fun _ _ => .error "fail"⟩
    [⟨"inc", fun _ n => .ok (n + 1)⟩] "fail" rfl rfl

/-! ### Content cache

Modelled from the spec: the Content Cache of section 4.2 is not under
src.  It maps a deterministic fingerprint of the world seed and
location identifier to generated content; a hit returns the stored
content with no Gateway call, a miss invokes the Gateway once and
stores the result before returning it.
-/

/-- Generated content of one location: description plus the creature
and item lists bound to it. -/
structure Content where
  description : String
  creatures : List Creature
  items : List Item
  deriving Repr, DecidableEq

/-- The cache fingerprint: world seed and location identifier. -/
structure CacheKey where
  worldSeed : Nat
  locationId : String
  deriving Repr, DecidableEq

/-- Association lookup in the cache store. -/
def lookupCache (store : List (CacheKey × Content)) (k : CacheKey) :
    Option Content :=
  match store.find? (fun e => e.1 == k) with
  | some e => some e.2
  | none => none

/-- The cache store together with the log of Gateway invocations made
so far, recorded by key. -/
structure CacheState where
  store : List (CacheKey × Content)
  gatewayCalls : List CacheKey
  deriving Repr, DecidableEq

/-- The session starts with an empty cache and no Gateway calls. -/
def emptyCache : CacheState := ⟨[], []⟩

/-- Modelled from the spec: get_or_generate returns the stored content
on a hit with no Gateway call, and on a miss invokes the Gateway once
for the key and stores the result before returning it. -/
def get_or_generate (cs : CacheState) (k : CacheKey)
    (gateway : CacheKey → Content) : Content × CacheState :=
  match lookupCache cs.store k with
  | some c => (c, cs)
  | none =>
    (gateway k, ⟨cs.store ++ [(k, gateway k)], cs.gatewayCalls ++ [k]⟩)

/-- A session visiting a sequence of locations in order, serving each
visit through the cache. -/
def runVisits (seed : Nat) (gateway : CacheKey → Content) :
    CacheState → List String → List Content × CacheState
  | cs, [] => ([], cs)
  | cs, loc :: rest =>
    let r := get_or_generate cs ⟨seed, loc⟩ gateway
    let r2 := runVisits seed gateway r.2 rest
    (r.1 :: r2.1, r2.2)

/-- Lookup distributes over appended stores, preferring the left one. -/
theorem lookupCache_append (s1 s2 : List (CacheKey × Content)) (k : CacheKey) :
    lookupCache (s1 ++ s2) k
      = match lookupCache s1 k with
        | some c => some c
        | none => lookupCache s2 k := by
  induction s1 with
  | nil => simp [lookupCache]
  | cons e t ih =>
    cases he : (e.1 == k) with
    | true => simp [lookupCache, List.find?, he]
    | false => simpa [lookupCache, List.find?, he] using ih

/-- A singleton store resolves its own key. -/
theorem lookupCache_single (k : CacheKey) (c : Content) :
    lookupCache [(k, c)] k = some c := by
  simp [lookupCache, List.find?]

/-- A stored binding survives a cache step for any key. -/
theorem get_or_generate_keeps (cs : CacheState) (k0 : CacheKey)
    (gw : CacheKey → Content) (k : CacheKey) (c : Content)
    (h : lookupCache cs.store k = some c) :
    lookupCache (get_or_generate cs k0 gw).2.store k = some c := by
  unfold get_or_generate
  cases hl : lookupCache cs.store k0 with
  | some c2 => exact h
  | none =>
    show lookupCache (cs.store ++ [(k0, gw k0)]) k = some c
    rw [lookupCache_append, h]

/-- A stored binding survives a whole visit run. -/
theorem runVisits_keeps (seed : Nat) (gw : CacheKey → Content)
    (locs : List String) :
    ∀ cs k c, lookupCache cs.store k = some c →
      lookupCache (runVisits seed gw cs locs).2.store k = some c := by
  induction locs with
  | nil => intro cs k c h; exact h
  | cons loc rest ih =>
    intro cs k c h
    exact ih _ k c (get_or_generate_keeps cs ⟨seed, loc⟩ gw k c h)

/-- A hit returns the stored content and leaves the cache unchanged. -/
theorem get_or_generate_hit (cs : CacheState) (k : CacheKey)
    (gw : CacheKey → Content) (c : Content)
    (h : lookupCache cs.store k = some c) :
    get_or_generate cs k gw = (c, cs) := by
  unfold get_or_generate
  rw [h]

/-- After a cache step for a key, the store resolves that key to the
content the step returned. -/
theorem get_or_generate_stores (cs : CacheState) (k : CacheKey)
    (gw : CacheKey → Content) :
    lookupCache (get_or_generate cs k gw).2.store k
      = some (get_or_generate cs k gw).1 := by
  unfold get_or_generate
  cases hl : lookupCache cs.store k with
  | some c => exact hl
  | none =>
    show lookupCache (cs.store ++ [(k, gw k)]) k = some (gw k)
    rw [lookupCache_append, hl, lookupCache_single]

/-- Visit runs decompose over appended location sequences. -/
theorem runVisits_append (seed : Nat) (gw : CacheKey → Content)
    (xs ys : List String) :
    ∀ cs, runVisits seed gw cs (xs ++ ys)
      = ((runVisits seed gw cs xs).1
          ++ (runVisits seed gw (runVisits seed gw cs xs).2 ys).1,
        (runVisits seed gw (runVisits seed gw cs xs).2 ys).2) := by
  induction xs with
  | nil => intro cs; simp [runVisits]
  | cons loc xs ih =>
    intro cs
    simp only [List.cons_append, runVisits, List.append_eq, ih]

/-- A visit run produces one content result per visited location. -/
theorem runVisits_length (seed : Nat) (gw : CacheKey → Content)
    (locs : List String) :
    ∀ cs, (runVisits seed gw cs locs).1.length = locs.length := by
  induction locs with
  | nil => intro cs; rfl
  | cons loc rest ih =>
    intro cs
    simp only [runVisits, List.length_cons, ih]

/-- The Gateway call accounting invariant: each key has been generated
exactly once if it is cached and never otherwise. -/
def cacheInv (cs : CacheState) : Prop :=
  ∀ k, cs.gatewayCalls.countP (fun x => x == k)
    = if (lookupCache cs.store k).isSome then 1 else 0

/-- The empty cache satisfies the accounting invariant. -/
theorem cacheInv_empty : cacheInv emptyCache := by
  intro k
  rfl

/-- One cache step preserves the accounting invariant. -/
theorem get_or_generate_inv (cs : CacheState) (k0 : CacheKey)
    (gw : CacheKey → Content) (h : cacheInv cs) :
    cacheInv (get_or_generate cs k0 gw).2 := by
  unfold get_or_generate
  cases hl : lookupCache cs.store k0 with
  | some c => exact h
  | none =>
    intro k
    show (cs.gatewayCalls ++ [k0]).countP (fun x => x == k)
      = if (lookupCache (cs.store ++ [(k0, gw k0)]) k).isSome then 1 else 0
    rw [List.countP_append, lookupCache_append]
    by_cases hk : k0 = k
    · subst hk
      rw [hl]
      have h0 := h k0
      rw [hl] at h0
      simp only [Option.isSome_none, Bool.false_eq_true, if_false] at h0
      rw [h0, lookupCache_single]
      simp
    · have hcount : ([k0].countP (fun x => x == k)) = 0 := by
        simp [List.countP_cons, hk]
      rw [hcount]
      have hb : (k0 == k) = false := by
        simp [hk]
      have hsing : lookupCache [(k0, gw k0)] k = none := by
        simp [lookupCache, List.find?, hb]
      cases hs : lookupCache cs.store k with
      | some c =>
        have h0 := h k
        rw [hs] at h0
        simpa using h0
      | none =>
        rw [hsing]
        have h0 := h k
        rw [hs] at h0
        simpa using h0

/-- A whole visit run preserves the accounting invariant. -/
theorem runVisits_inv (seed : Nat) (gw : CacheKey → Content)
    (locs : List String) :
    ∀ cs, cacheInv cs → cacheInv (runVisits seed gw cs locs).2 := by
  induction locs with
  | nil => intro cs h; exact h
  | cons loc rest ih =>
    intro cs h
    exact ih _ (get_or_generate_inv cs ⟨seed, loc⟩ gw h)

/-- First projection of a literal pair. -/
theorem prodFst {α β : Type} (a : α) (b : β) : (a, b).1 = a := rfl

/-- Second projection of a literal pair. -/
theorem prodSnd {α β : Type} (a : α) (b : β) : (a, b).2 = b := rfl

/-- Claim C1: within one session, revisiting a location returns content
identical to the first visit, and the Gateway is called exactly once
for that location key over the whole run. -/
theorem cache_idempotent_revisit (seed : Nat) (gateway : CacheKey → Content)
    (l1 l2 l3 : List String) (loc : String) :
    (runVisits seed gateway emptyCache
        (l1 ++ loc :: (l2 ++ loc :: l3))).1[l1.length + 1 + l2.length]?
      = (runVisits seed gateway emptyCache
          (l1 ++ loc :: (l2 ++ loc :: l3))).1[l1.length]?
    ∧ ((runVisits seed gateway emptyCache
        (l1 ++ loc :: (l2 ++ loc :: l3))).1[l1.length]?).isSome = true
    ∧ (runVisits seed gateway emptyCache
        (l1 ++ loc :: (l2 ++ loc :: l3))).2.gatewayCalls.countP
          (fun x => x == CacheKey.mk seed loc) = 1 := by
  rw [runVisits_append seed gateway l1 (loc :: (l2 ++ loc :: l3)) emptyCache]
  simp only [prodFst, prodSnd]
  set A := runVisits seed gateway emptyCache l1 with hA
  have hstep1 : runVisits seed gateway A.2 (loc :: (l2 ++ loc :: l3))
      = ((get_or_generate A.2 ⟨seed, loc⟩ gateway).1
          :: (runVisits seed gateway
              (get_or_generate A.2 ⟨seed, loc⟩ gateway).2 (l2 ++ loc :: l3)).1,
        (runVisits seed gateway
            (get_or_generate A.2 ⟨seed, loc⟩ gateway).2 (l2 ++ loc :: l3)).2) := rfl
  rw [hstep1]
  simp only [prodFst, prodSnd]
  set g := get_or_generate A.2 ⟨seed, loc⟩ gateway with hg
  rw [runVisits_append seed gateway l2 (loc :: l3) g.2]
  simp only [prodFst, prodSnd]
  set C := runVisits seed gateway g.2 l2 with hC
  have hstep2 : runVisits seed gateway C.2 (loc :: l3)
      = ((get_or_generate C.2 ⟨seed, loc⟩ gateway).1
          :: (runVisits seed gateway
              (get_or_generate C.2 ⟨seed, loc⟩ gateway).2 l3).1,
        (runVisits seed gateway
            (get_or_generate C.2 ⟨seed, loc⟩ gateway).2 l3).2) := rfl
  rw [hstep2]
  simp only [prodFst, prodSnd]
  have hlenA : A.1.length = l1.length := by
    rw [hA]
    exact runVisits_length seed gateway l1 emptyCache
  have hlenC : C.1.length = l2.length := by
    rw [hC]
    exact runVisits_length seed gateway l2 g.2
  have hstore : lookupCache g.2.store ⟨seed, loc⟩ = some g.1 := by
    rw [hg]
    exact get_or_generate_stores A.2 ⟨seed, loc⟩ gateway
  have hkeep : lookupCache C.2.store ⟨seed, loc⟩ = some g.1 := by
    rw [hC]
    exact runVisits_keeps seed gateway l2 g.2 ⟨seed, loc⟩ g.1 hstore
  have hhit := get_or_generate_hit C.2 ⟨seed, loc⟩ gateway g.1 hkeep
  have houtput2 : (get_or_generate C.2 ⟨seed, loc⟩ gateway).1 = g.1 := by
    rw [hhit]
  have hstate2 : (get_or_generate C.2 ⟨seed, loc⟩ gateway).2 = C.2 := by
    rw [hhit]
  rw [houtput2, hstate2]
  set E := runVisits seed gateway C.2 l3 with hE
  have hL1 : (A.1 ++ g.1 :: (C.1 ++ g.1 :: E.1))[l1.length]? = some g.1 := by
    rw [List.getElem?_append_right (le_of_eq hlenA), hlenA, Nat.sub_self]
    exact List.getElem?_cons_zero
  have hL2 : (A.1 ++ g.1 :: (C.1 ++ g.1 :: E.1))[l1.length + 1 + l2.length]?
      = some g.1 := by
    rw [List.getElem?_append_right (by omega : A.1.length ≤ l1.length + 1 + l2.length),
      hlenA]
    have hidx : l1.length + 1 + l2.length - l1.length = l2.length + 1 := by omega
    rw [hidx, List.getElem?_cons_succ,
      List.getElem?_append_right (le_of_eq hlenC), hlenC, Nat.sub_self]
    exact List.getElem?_cons_zero
  refine ⟨hL2.trans hL1.symm, by rw [hL1]; rfl, ?_⟩
  have hinv0 : cacheInv A.2 := by
    rw [hA]
    exact runVisits_inv seed gateway l1 emptyCache cacheInv_empty
  have hinv1 : cacheInv g.2 := by
    rw [hg]
    exact get_or_generate_inv A.2 ⟨seed, loc⟩ gateway hinv0
  have hinv2 : cacheInv C.2 := by
    rw [hC]
    exact runVisits_inv seed gateway l2 g.2 hinv1
  have hinv3 : cacheInv E.2 := by
    rw [hE]
    exact runVisits_inv seed gateway l3 C.2 hinv2
  have hlook : lookupCache E.2.store ⟨seed, loc⟩ = some g.1 := by
    rw [hE]
    exact runVisits_keeps seed gateway l3 C.2 ⟨seed, loc⟩ g.1 hkeep
  have hfin := hinv3 ⟨seed, loc⟩
  rw [hlook] at hfin
  simpa using hfin

/-! ### Single-flight concurrent generation

Modelled from the spec: section 5 requires a single in-flight
generation request per cache key.  We model interleaved requests as a
trace of start and finish events over a cache state that tracks the
store, the keys currently in flight, and the log of Gateway calls.  A
start on a cached key is served from the store, a start on an in-flight
key joins the pending generation without a new Gateway call, and only a
start on a fresh key invokes the Gateway.  A finish lands the generated
content in the store.
-/

/-- A request event: a caller starts a generation request for a key, or
the in-flight generation of a key completes. -/
inductive ReqEvent where
  | start (k : CacheKey)
  | finish (k : CacheKey)
  deriving Repr, DecidableEq

/-- The concurrent cache state: stored content, keys in flight, and the
Gateway invocation log. -/
structure ConcCache where
  store : List (CacheKey × Content)
  inflight : List CacheKey
  gatewayCalls : List CacheKey
  deriving Repr, DecidableEq

/-- The initial concurrent cache state. -/
def emptyConc : ConcCache := ⟨[], [], []⟩

/-- Modelled from the spec: one step of the per-key single-flight
discipline of sections 4.2 and 5. -/
def concStep (gw : CacheKey → Content) (cs : ConcCache) : ReqEvent → ConcCache
  | .start k =>
    if (lookupCache cs.store k).isSome = true then cs
    else if k ∈ cs.inflight then cs
    else { cs with inflight := cs.inflight ++ [k]
                 , gatewayCalls := cs.gatewayCalls ++ [k] }
  | .finish k =>
    if k ∈ cs.inflight then
      { store := cs.store ++ [(k, gw k)]
      , inflight := cs.inflight.erase k
      , gatewayCalls := cs.gatewayCalls }
    else cs

/-- A whole interleaved trace of request events. -/
def runConc (gw : CacheKey → Content) (cs : ConcCache)
    (evts : List ReqEvent) : ConcCache :=
  evts.foldl (concStep gw) cs

/-- A key counts as generated once it is cached or in flight. -/
def concKeyDone (cs : ConcCache) (k : CacheKey) : Bool :=
  (lookupCache cs.store k).isSome || decide (k ∈ cs.inflight)

/-- Accounting invariant: the Gateway has been called exactly once for
each generated key and never for any other key. -/
def concInv (cs : ConcCache) : Prop :=
  ∀ k, cs.gatewayCalls.countP (fun x => x == k)
    = if concKeyDone cs k then 1 else 0

/-- Appending stores preserves and extends resolvability. -/
theorem lookupCache_append_isSome (s1 s2 : List (CacheKey × Content))
    (k : CacheKey) :
    (lookupCache (s1 ++ s2) k).isSome
      = ((lookupCache s1 k).isSome || (lookupCache s2 k).isSome) := by
  rw [lookupCache_append]
  cases hs : lookupCache s1 k <;> simp

/-- A singleton store resolves exactly its own key. -/
theorem lookupCache_single_isSome (k0 k : CacheKey) (c : Content) :
    (lookupCache [(k0, c)] k).isSome = (k0 == k) := by
  by_cases hk : k0 = k
  · subst hk
    rw [lookupCache_single]
    simp
  · have hb : (k0 == k) = false := by simp [hk]
    simp [lookupCache, List.find?, hb]

/-- The initial state satisfies the accounting invariant. -/
theorem concInv_empty : concInv emptyConc := by
  intro k
  rfl

/-- Each event preserves the accounting invariant. -/
theorem concStep_inv (gw : CacheKey → Content) (cs : ConcCache)
    (e : ReqEvent) (h : concInv cs) : concInv (concStep gw cs e) := by
  cases e with
  | start k0 =>
    simp only [concStep]
    by_cases h1 : (lookupCache cs.store k0).isSome = true
    · rw [if_pos h1]
      exact h
    · rw [if_neg h1]
      by_cases h2 : k0 ∈ cs.inflight
      · rw [if_pos h2]
        exact h
      · rw [if_neg h2]
        intro k
        show (cs.gatewayCalls ++ [k0]).countP (fun x => x == k)
          = if concKeyDone ⟨cs.store, cs.inflight ++ [k0], cs.gatewayCalls ++ [k0]⟩ k
            then 1 else 0
        rw [List.countP_append]
        have h0 := h k
        by_cases hk : k0 = k
        · subst hk
          have hdone0 : concKeyDone cs k0 = false := by
            unfold concKeyDone
            simp [h1, h2]
          rw [hdone0, if_neg (by simp)] at h0
          have hdone1 : concKeyDone ⟨cs.store, cs.inflight ++ [k0], cs.gatewayCalls ++ [k0]⟩ k0
              = true := by
            unfold concKeyDone
            simp
          rw [h0, hdone1, if_pos rfl]
          simp [List.countP_cons]
        · have hc1 : ([k0].countP (fun x => x == k)) = 0 := by
            simp [List.countP_cons, hk]
          have hdone : concKeyDone ⟨cs.store, cs.inflight ++ [k0], cs.gatewayCalls ++ [k0]⟩ k
              = concKeyDone cs k := by
            unfold concKeyDone
            have hne : ¬ k = k0 := fun hc => hk hc.symm
            simp [List.mem_append, hne]
          rw [hc1, Nat.add_zero, hdone]
          exact h0
  | finish k0 =>
    simp only [concStep]
    by_cases h1 : k0 ∈ cs.inflight
    · rw [if_pos h1]
      intro k
      show cs.gatewayCalls.countP (fun x => x == k)
        = if concKeyDone ⟨cs.store ++ [(k0, gw k0)], cs.inflight.erase k0, cs.gatewayCalls⟩ k
          then 1 else 0
      have h0 := h k
      by_cases hk : k0 = k
      · subst hk
        have hdone0 : concKeyDone cs k0 = true := by
          unfold concKeyDone
          simp [h1]
        rw [hdone0, if_pos rfl] at h0
        have hdone1 : concKeyDone ⟨cs.store ++ [(k0, gw k0)], cs.inflight.erase k0, cs.gatewayCalls⟩ k0
            = true := by
          unfold concKeyDone
          rw [lookupCache_append_isSome, lookupCache_single_isSome]
          simp
        rw [hdone1, if_pos rfl]
        exact h0
      · have hne : ¬ k = k0 := fun hc => hk hc.symm
        have hdone : concKeyDone ⟨cs.store ++ [(k0, gw k0)], cs.inflight.erase k0, cs.gatewayCalls⟩ k
            = concKeyDone cs k := by
          unfold concKeyDone
          rw [lookupCache_append_isSome, lookupCache_single_isSome]
          have hb : (k0 == k) = false := by simp [hk]
          simp only [hb, Bool.or_false, List.mem_erase_of_ne hne]
        rw [hdone]
        exact h0
    · rw [if_neg h1]
      exact h

/-- A whole trace preserves the accounting invariant. -/
theorem runConc_inv (gw : CacheKey → Content) (evts : List ReqEvent) :
    ∀ cs, concInv cs → concInv (runConc gw cs evts) := by
  induction evts with
  | nil => intro cs h; exact h
  | cons e rest ih =>
    intro cs h
    exact ih _ (concStep_inv gw cs e h)

/-- Once generated, a key stays generated through any later event. -/
theorem concStep_done_mono (gw : CacheKey → Content) (cs : ConcCache)
    (e : ReqEvent) (k : CacheKey) (h : concKeyDone cs k = true) :
    concKeyDone (concStep gw cs e) k = true := by
  cases e with
  | start k0 =>
    simp only [concStep]
    by_cases h1 : (lookupCache cs.store k0).isSome = true
    · rw [if_pos h1]; exact h
    · rw [if_neg h1]
      by_cases h2 : k0 ∈ cs.inflight
      · rw [if_pos h2]; exact h
      · rw [if_neg h2]
        unfold concKeyDone at *
        rcases Bool.or_eq_true_iff.mp h with hc | hc
        · exact Bool.or_eq_true_iff.mpr (Or.inl hc)
        · refine Bool.or_eq_true_iff.mpr (Or.inr ?_)
          rw [decide_eq_true_eq] at hc ⊢
          exact List.mem_append_left _ hc
  | finish k0 =>
    simp only [concStep]
    by_cases h1 : k0 ∈ cs.inflight
    · rw [if_pos h1]
      unfold concKeyDone at *
      rcases Bool.or_eq_true_iff.mp h with hc | hc
      · refine Bool.or_eq_true_iff.mpr (Or.inl ?_)
        show (lookupCache (cs.store ++ [(k0, gw k0)]) k).isSome = true
        rw [lookupCache_append_isSome, hc]
        rfl
      · rw [decide_eq_true_eq] at hc
        by_cases hk : k = k0
        · subst hk
          refine Bool.or_eq_true_iff.mpr (Or.inl ?_)
          show (lookupCache (cs.store ++ [(k, gw k)]) k).isSome = true
          rw [lookupCache_append_isSome, lookupCache_single_isSome]
          simp
        · refine Bool.or_eq_true_iff.mpr (Or.inr ?_)
          rw [decide_eq_true_eq]
          exact (List.mem_erase_of_ne hk).mpr hc
    · rw [if_neg h1]
      exact h

/-- After a start event the key is generated. -/
theorem concStep_start_done (gw : CacheKey → Content) (cs : ConcCache)
    (k : CacheKey) : concKeyDone (concStep gw cs (.start k)) k = true := by
  simp only [concStep]
  by_cases h1 : (lookupCache cs.store k).isSome = true
  · rw [if_pos h1]
    unfold concKeyDone
    rw [h1]
    rfl
  · rw [if_neg h1]
    by_cases h2 : k ∈ cs.inflight
    · rw [if_pos h2]
      unfold concKeyDone
      simp [h2]
    · rw [if_neg h2]
      unfold concKeyDone
      simp

/-- Generated keys stay generated through any later trace. -/
theorem runConc_done_mono (gw : CacheKey → Content) (evts : List ReqEvent) :
    ∀ cs k, concKeyDone cs k = true →
      concKeyDone (runConc gw cs evts) k = true := by
  induction evts with
  | nil => intro cs k h; exact h
  | cons e rest ih =>
    intro cs k h
    exact ih _ k (concStep_done_mono gw cs e k h)

/-- Claim C5: over every interleaved trace the Gateway is called at
most once per key, exactly once for any key that some caller requested,
and a start for one key does not block a concurrent start for a
distinct key: after two starts for distinct fresh keys both are in
flight simultaneously. -/
theorem single_flight_gateway (gw : CacheKey → Content)
    (evts : List ReqEvent) (k : CacheKey) :
    (runConc gw emptyConc evts).gatewayCalls.countP (fun x => x == k) ≤ 1
    ∧ (ReqEvent.start k ∈ evts →
        (runConc gw emptyConc evts).gatewayCalls.countP (fun x => x == k) = 1)
    ∧ (∀ k1 k2 : CacheKey, k1 ≠ k2 →
        k1 ∈ (runConc gw emptyConc [ReqEvent.start k1, ReqEvent.start k2]).inflight
        ∧ k2 ∈ (runConc gw emptyConc [ReqEvent.start k1, ReqEvent.start k2]).inflight) := by
  have hinv := runConc_inv gw evts emptyConc concInv_empty
  refine ⟨?_, ?_, ?_⟩
  · have h0 := hinv k
    rw [h0]
    by_cases hd : concKeyDone (runConc gw emptyConc evts) k = true
    · rw [if_pos hd]
    · rw [if_neg hd]
      omega
  · intro hmem
    obtain ⟨s, t, hst⟩ := List.append_of_mem hmem
    subst hst
    have hdone : concKeyDone (runConc gw emptyConc (s ++ ReqEvent.start k :: t)) k
        = true := by
      have hsplit : runConc gw emptyConc (s ++ ReqEvent.start k :: t)
          = runConc gw
              (concStep gw (runConc gw emptyConc s) (.start k)) t := by
        unfold runConc
        rw [List.foldl_append]
        rfl
      rw [hsplit]
      exact runConc_done_mono gw t _ k
        (concStep_start_done gw (runConc gw emptyConc s) k)
    have h0 := hinv k
    rw [hdone, if_pos rfl] at h0
    exact h0
  · intro k1 k2 h12
    have h21 : ¬ k2 = k1 := fun hc => h12 hc.symm
    have e1 : concStep gw emptyConc (.start k1) = ⟨[], [k1], [k1]⟩ := by
      simp [concStep, emptyConc, lookupCache, List.find?]
    have e2 : concStep gw ⟨[], [k1], [k1]⟩ (.start k2)
        = ⟨[], [k1, k2], [k1, k2]⟩ := by
      simp [concStep, lookupCache, List.find?, h21]
    have hrun : runConc gw emptyConc [ReqEvent.start k1, ReqEvent.start k2]
        = ⟨[], [k1, k2], [k1, k2]⟩ := by
      unfold runConc
      show concStep gw (concStep gw emptyConc (.start k1)) (.start k2) = _
      rw [e1, e2]
    rw [hrun]
    exact ⟨List.mem_cons_self k1 [k2], List.mem_cons_of_mem k1 (List.mem_cons_self k2 [])⟩

/-- Witness for claim C5: a single start event for a concrete key makes
exactly one Gateway call. -/
theorem single_flight_gateway_witness :
    (runConc (fun _ => ⟨"", [], []⟩) emptyConc
        [ReqEvent.start ⟨0, "cave"⟩]).gatewayCalls.countP
      (fun x => x == CacheKey.mk 0 "cave") = 1 :=
  (single_flight_gateway (fun _ => ⟨"", [], []⟩)
    [ReqEvent.start ⟨0, "cave"⟩] ⟨0, "cave"⟩).2.1 (by decide)

/-! ### Session persistence

Modelled from the spec: save and load of section 4.6 are not under
src.  A session serializes to a self-contained structured value
(player, current location id, combat context, quests, turn counter and
the full cache contents); load decodes it and re-validates the data
model invariants of section 3, failing with SaveCorrupt on a malformed
value.
-/

/-- A structured serialized value, the shape of one save slot. -/
inductive SVal where
  | str (v : String)
  | int (v : Int)
  | nat (v : Nat)
  | arr (vs : List SVal)
  | obj (fields : List (String × SVal))
  | null

/-- Combat context present only during an active encounter. -/
structure CombatContext where
  enemies : List Creature
  round : Nat
  deriving Repr, DecidableEq

/-- The aggregate session root of section 3. -/
structure Session where
  player : Player
  currentLocation : String
  combat : Option CombatContext
  quests : List Quest
  turnCounter : Nat
  cache : List (CacheKey × Content)
  deriving Repr, DecidableEq

/-- Errors of the load operation. -/
inductive LoadError where
  | saveNotFound
  | saveCorrupt
  deriving Repr, DecidableEq

def encodeItem (it : Item) : SVal :=
  .obj [("name", .str it.name), ("description", .str it.description),
        ("effect", .str it.effect)]

def decodeItem : SVal → Option Item
  | .obj [("name", .str n), ("description", .str d), ("effect", .str e)] =>
    some ⟨n, d, e⟩
  | _ => none

def encodeCreature (c : Creature) : SVal :=
  .obj [("name", .str c.name), ("level", .int c.level),
        ("health", .int c.health), ("max_health", .int c.max_health),
        ("attack", .int c.attack)]

def decodeCreature : SVal → Option Creature
  | .obj [("name", .str n), ("level", .int lv), ("health", .int h),
          ("max_health", .int mh), ("attack", .int a)] =>
    some ⟨n, lv, h, mh, a⟩
  | _ => none

def encodePlayerClass (pc : PlayerClass) : SVal := .str pc.value

def decodePlayerClass : SVal → Option PlayerClass
  | .str "warrior" => some .warrior
  | .str "mage" => some .mage
  | .str "rogue" => some .rogue
  | .str "ranger" => some .ranger
  | _ => none

def encodeList {α : Type} (f : α → SVal) (xs : List α) : SVal :=
  .arr (xs.map f)

def decodeList {α : Type} (f : SVal → Option α) : SVal → Option (List α)
  | .arr vs => vs.mapM f
  | _ => none

def encodePlayer (p : Player) : SVal :=
  .obj [("name", .str p.name), ("class", encodePlayerClass p.player_class),
        ("health", .int p.health), ("max_health", .int p.max_health),
        ("level", .int p.level), ("experience", .int p.experience),
        ("inventory", encodeList encodeItem p.inventory),
        ("location", .str p.location)]

def decodePlayer : SVal → Option Player
  | .obj [("name", .str nm), ("class", cls), ("health", .int h),
          ("max_health", .int mh), ("level", .int lv),
          ("experience", .int xp), ("inventory", inv),
          ("location", .str loc)] =>
    match decodePlayerClass cls, decodeList decodeItem inv with
    | some pc, some items => some ⟨nm, pc, h, mh, lv, xp, items, loc⟩
    | _, _ => none
  | _ => none

def encodeQuest (q : Quest) : SVal :=
  .obj [("title", .str q.title), ("description", .str q.description),
        ("quest_type", .str q.quest_type), ("target_count", .nat q.target_count),
        ("progress", .nat q.progress), ("reward_exp", .nat q.reward_exp)]

def decodeQuest : SVal → Option Quest
  | .obj [("title", .str t), ("description", .str d), ("quest_type", .str ty),
          ("target_count", .nat tc), ("progress", .nat pr),
          ("reward_exp", .nat rx)] =>
    some ⟨t, d, ty, tc, pr, rx⟩
  | _ => none

def encodeCacheKey (k : CacheKey) : SVal :=
  .obj [("worldSeed", .nat k.worldSeed), ("locationId", .str k.locationId)]

def decodeCacheKey : SVal → Option CacheKey
  | .obj [("worldSeed", .nat s), ("locationId", .str l)] => some ⟨s, l⟩
  | _ => none

def encodeContent (c : Content) : SVal :=
  .obj [("description", .str c.description),
        ("creatures", encodeList encodeCreature c.creatures),
        ("items", encodeList encodeItem c.items)]

def decodeContent : SVal → Option Content
  | .obj [("description", .str d), ("creatures", cr), ("items", it)] =>
    match decodeList decodeCreature cr, decodeList decodeItem it with
    | some cs, some its => some ⟨d, cs, its⟩
    | _, _ => none
  | _ => none

def encodeCacheEntry (e : CacheKey × Content) : SVal :=
  .obj [("key", encodeCacheKey e.1), ("content", encodeContent e.2)]

def decodeCacheEntry : SVal → Option (CacheKey × Content)
  | .obj [("key", kv), ("content", cv)] =>
    match decodeCacheKey kv, decodeContent cv with
    | some k, some c => some (k, c)
    | _, _ => none
  | _ => none

def encodeCombat (c : CombatContext) : SVal :=
  .obj [("enemies", encodeList encodeCreature c.enemies),
        ("round", .nat c.round)]

def decodeCombat : SVal → Option CombatContext
  | .obj [("enemies", ev), ("round", .nat r)] =>
    match decodeList decodeCreature ev with
    | some es => some ⟨es, r⟩
    | none => none
  | _ => none

def encodeCombatOpt : Option CombatContext → SVal
  | none => .null
  | some c => encodeCombat c

def decodeCombatOpt : SVal → Option (Option CombatContext)
  | .null => some none
  | v =>
    match decodeCombat v with
    | some c => some (some c)
    | none => none

/-- Modelled from the spec: serialization of a session into one save
slot value (section 4.6). -/
def save_session (s : Session) : SVal :=
  .obj [("player", encodePlayer s.player),
        ("location", .str s.currentLocation),
        ("combat", encodeCombatOpt s.combat),
        ("quests", encodeList encodeQuest s.quests),
        ("turn", .nat s.turnCounter),
        ("cache", encodeList encodeCacheEntry s.cache)]

def decodeSession : SVal → Option Session
  | .obj [("player", pv), ("location", .str loc), ("combat", cv),
          ("quests", qv), ("turn", .nat tn), ("cache", chv)] =>
    match decodePlayer pv, decodeCombatOpt cv, decodeList decodeQuest qv,
        decodeList decodeCacheEntry chv with
    | some p, some cb, some qs, some ch => some ⟨p, loc, cb, qs, tn, ch⟩
    | _, _, _, _ => none
  | _ => none

/-- The data model invariants of section 3 that load re-validates. -/
def playerValid (p : Player) : Bool :=
  decide (0 ≤ p.health) && decide (p.health ≤ p.max_health)
    && decide (1 ≤ p.level) && decide (0 ≤ p.experience)

def questValid (q : Quest) : Bool :=
  decide (q.progress ≤ q.target_count)

def sessionValid (s : Session) : Bool :=
  playerValid s.player && s.quests.all questValid

/-- Modelled from the spec: load decodes a save slot value and fails
with SaveCorrupt when fields are missing or the invariants of section 3
do not hold; it never partially applies a corrupt save. -/
def load_session (v : SVal) : Except LoadError Session :=
  match decodeSession v with
  | none => .error .saveCorrupt
  | some s => if sessionValid s then .ok s else .error .saveCorrupt

/-- Mapping an encoder then traversing its decoder is the identity. -/
theorem mapM_map_roundtrip {α : Type} (f : α → SVal) (g : SVal → Option α)
    (h : ∀ x, g (f x) = some x) :
    ∀ xs : List α, (xs.map f).mapM g = some xs := by
  intro xs
  induction xs with
  | nil => rfl
  | cons x t ih =>
    rw [List.map_cons, List.mapM_cons, h x, ih]
    rfl

/-- List round-trip through encodeList and decodeList. -/
theorem decodeList_encodeList {α : Type} (f : α → SVal) (g : SVal → Option α)
    (h : ∀ x, g (f x) = some x) (xs : List α) :
    decodeList g (encodeList f xs) = some xs := by
  unfold encodeList decodeList
  exact mapM_map_roundtrip f g h xs

theorem decodeItem_encodeItem (it : Item) : decodeItem (encodeItem it) = some it := rfl

theorem decodeCreature_encodeCreature (c : Creature) :
    decodeCreature (encodeCreature c) = some c := rfl

theorem decodePlayerClass_encodePlayerClass (pc : PlayerClass) :
    decodePlayerClass (encodePlayerClass pc) = some pc := by
  cases pc <;> rfl

theorem decodePlayer_encodePlayer (p : Player) :
    decodePlayer (encodePlayer p) = some p := by
  show decodePlayer (.obj [("name", .str p.name),
    ("class", encodePlayerClass p.player_class),
    ("health", .int p.health), ("max_health", .int p.max_health),
    ("level", .int p.level), ("experience", .int p.experience),
    ("inventory", encodeList encodeItem p.inventory),
    ("location", .str p.location)]) = some p
  simp only [decodePlayer, decodePlayerClass_encodePlayerClass,
    decodeList_encodeList encodeItem decodeItem decodeItem_encodeItem]

theorem decodeQuest_encodeQuest (q : Quest) :
    decodeQuest (encodeQuest q) = some q := rfl

theorem decodeCacheKey_encodeCacheKey (k : CacheKey) :
    decodeCacheKey (encodeCacheKey k) = some k := rfl

theorem decodeContent_encodeContent (c : Content) :
    decodeContent (encodeContent c) = some c := by
  show decodeContent (.obj [("description", .str c.description),
    ("creatures", encodeList encodeCreature c.creatures),
    ("items", encodeList encodeItem c.items)]) = some c
  simp only [decodeContent,
    decodeList_encodeList encodeCreature decodeCreature decodeCreature_encodeCreature,
    decodeList_encodeList encodeItem decodeItem decodeItem_encodeItem]

theorem decodeCacheEntry_encodeCacheEntry (e : CacheKey × Content) :
    decodeCacheEntry (encodeCacheEntry e) = some e := by
  show decodeCacheEntry (.obj [("key", encodeCacheKey e.1),
    ("content", encodeContent e.2)]) = some e
  simp only [decodeCacheEntry, decodeCacheKey_encodeCacheKey,
    decodeContent_encodeContent]

theorem decodeCombat_encodeCombat (c : CombatContext) :
    decodeCombat (encodeCombat c) = some c := by
  show decodeCombat (.obj [("enemies", encodeList encodeCreature c.enemies),
    ("round", .nat c.round)]) = some c
  simp only [decodeCombat,
    decodeList_encodeList encodeCreature decodeCreature decodeCreature_encodeCreature]

theorem decodeCombatOpt_encodeCombatOpt (c : Option CombatContext) :
    decodeCombatOpt (encodeCombatOpt c) = some c := by
  cases c with
  | none => rfl
  | some cc =>
    show decodeCombatOpt (encodeCombat cc) = some (some cc)
    have h1 : decodeCombatOpt (encodeCombat cc)
        = match decodeCombat (encodeCombat cc) with
          | some c => some (some c)
          | none => none := rfl
    rw [h1, decodeCombat_encodeCombat]

theorem decodeSession_save_session (s : Session) :
    decodeSession (save_session s) = some s := by
  show decodeSession (.obj [("player", encodePlayer s.player),
    ("location", .str s.currentLocation),
    ("combat", encodeCombatOpt s.combat),
    ("quests", encodeList encodeQuest s.quests),
    ("turn", .nat s.turnCounter),
    ("cache", encodeList encodeCacheEntry s.cache)]) = some s
  simp only [decodeSession, decodePlayer_encodePlayer,
    decodeCombatOpt_encodeCombatOpt,
    decodeList_encodeList encodeQuest decodeQuest decodeQuest_encodeQuest,
    decodeList_encodeList encodeCacheEntry decodeCacheEntry decodeCacheEntry_encodeCacheEntry]

/-- Claim C4: saving a session that satisfies the data model invariants
and loading the resulting slot value yields exactly the saved session,
with player stats, location id, quest progress and cache contents
structurally equal. -/
theorem save_load_roundtrip (s : Session) (h : sessionValid s = true) :
    load_session (save_session s) = .ok s := by
  unfold load_session
  rw [decodeSession_save_session]
  show (if sessionValid s then Except.ok s else Except.error LoadError.saveCorrupt)
    = Except.ok s
  rw [if_pos h]

/-- Witness for claim C4 on a concrete session with a cached location
and an active quest. -/
theorem save_load_roundtrip_witness :
    let s : Session :=
      ⟨⟨"Hero", PlayerClass.warrior, 30, 100, 1, 0,
          [⟨"Potion", "Heals you.", "heal 10"⟩], "start"⟩,
        "start", none,
        [⟨"Monster Hunter", "Defeat 3 goblin creatures", "combat", 3, 1, 100⟩],
        7,
        [(⟨0, "start"⟩, ⟨"A quiet clearing.", [⟨"Goblin", 1, 4, 10, 2⟩], []⟩)]⟩
    sessionValid s = true ∧ load_session (save_session s) = .ok s :=
  ⟨by decide, save_load_roundtrip _ (by decide)⟩
